import Mathlib

/-!
Verification development for the PricesTracker search and price-history
core.  The repository ships the React frontend (under `frontend/src`);
the FastAPI backend that implements the Filter Builder, Search Executor,
Price History Aggregator and Pagination Controller is not part of the
shipped sources, so those components are modelled from the
words of the specification, as indicated by the doc comments below.  The
frontend page logic (`Search.jsx` `handleSearch`) is embedded from the
source directly.
-/

namespace PricesTracker

/-! ### Case-insensitive string machinery -/

/-- Lower-case a list of characters (ASCII case folding, as
`str.lower()` / `String.toLower` does on the ASCII range). -/
def lowerChars (cs : List Char) : List Char := cs.map Char.toLower

/-- Lower-case a string, viewed as its character list. -/
def lowerStr (s : String) : List Char := lowerChars s.toList

/-- Substring containment on character lists: `containsSub needle hay`
is `true` iff `needle` occurs contiguously inside `hay`. -/
def containsSub (needle : List Char) : List Char → Bool
  | [] => needle.isEmpty
  | c :: t => needle.isPrefixOf (c :: t) || containsSub needle t

/-- Case-insensitive substring containment between strings. -/
def ciContains (needle hay : String) : Bool :=
  containsSub (lowerStr needle) (lowerStr hay)

/-- Whitespace trimming on both ends, as the JavaScript `trim()` and
the validation boundary perform it. -/
def strTrim (s : String) : String :=
  ⟨(((s.toList).dropWhile Char.isWhitespace).reverse.dropWhile
      Char.isWhitespace).reverse⟩

/-! ### Calendar dates -/

/-- Calendar date, no time component. -/
structure Date where
  y : Nat
  m : Nat
  d : Nat
deriving DecidableEq

/-- Numeric key embedding the lexicographic (year, month, day) order. -/
def Date.key (dt : Date) : Int := (dt.y * 10000 + dt.m * 100 + dt.d : Nat)

/-- Numeric value of an ASCII digit. -/
def digitVal (c : Char) : Nat := c.toNat - 48

/-- Modelled from the spec: the Filter Builder rejects a "bad date
format" with `InvalidInput`.  Dates arrive as `YYYY-MM-DD` strings (the
frontend date inputs produce exactly this shape); anything else is
malformed.  Returns `none` on a malformed date. -/
def parseDate (s : String) : Option Date :=
  match s.toList with
  | [y1, y2, y3, y4, h1, m1, m2, h2, d1, d2] =>
    if h1 = '-' ∧ h2 = '-' ∧ ([y1, y2, y3, y4, m1, m2, d1, d2].all Char.isDigit) then
      let y := ((digitVal y1 * 10 + digitVal y2) * 10 + digitVal y3) * 10 + digitVal y4
      let mo := digitVal m1 * 10 + digitVal m2
      let da := digitVal d1 * 10 + digitVal d2
      if 1 ≤ mo ∧ mo ≤ 12 ∧ 1 ≤ da ∧ da ≤ 31 then some ⟨y, mo, da⟩ else none
    else none
  | _ => none

/-! ### Data model (spec section 3) -/

/-- Receipt context carried by each item: one shopping transaction at a
supermarket on a date, in a fixed currency. -/
structure Receipt where
  supermarketName : String
  purchaseDate : Date
  currency : String
deriving DecidableEq

/-- A single priced line entry belonging to a receipt.  Prices are
fixed-point decimals kept as integer minor units (spec section 4.5);
the effective currency is the currency of the parent receipt. -/
structure Item where
  id : Nat
  name : String
  brand : Option String
  price : Int
  quantity : Int
  receipt : Receipt
deriving DecidableEq

/-- The Item Store snapshot visible to one user: the list of items the
user owns, transitively through receipts. -/
abbrev Store := List Item

/-! ### Regex model (spec section 4.1) -/

/-- Metacharacters of the modelled pattern fragment. -/
def regexMeta : List Char :=
  ['^', '$', '.', '*', '+', '?', '(', ')', '[', ']', '|', '\\', '\x7b', '\x7d']

/-- Compiled case-insensitive pattern: optional anchors around a
literal body. -/
structure CompiledPattern where
  startAnchor : Bool
  endAnchor : Bool
  body : List Char
deriving DecidableEq

/-- Modelled from the spec: the search keyword "is compiled as a
case-insensitive pattern; compilation failure fails with
`InvalidPattern`".  The model supports the anchored-literal fragment
(optional leading caret, optional trailing dollar, literal body); any
remaining metacharacter makes compilation fail, which in particular
covers patterns that genuinely fail to compile in a real engine, such
as a lone opening parenthesis. -/
def compilePattern (pat : List Char) : Option CompiledPattern :=
  let p1 : Bool × List Char :=
    match pat with
    | '^' :: r => (true, r)
    | r => (false, r)
  let p2 : Bool × List Char :=
    match p1.2.reverse with
    | '$' :: r => (true, r.reverse)
    | _ => (false, p1.2)
  if p2.2.any (fun c => regexMeta.contains c) then none
  else some ⟨p1.1, p2.1, p2.2⟩

/-- Modelled from the spec: case-insensitive pattern match of a
compiled pattern against a string (unanchored occurrence unless the
pattern carries anchors, as in the usual `re.search` semantics). -/
def matchCompiled (c : CompiledPattern) (s : List Char) : Bool :=
  let sl := lowerChars s
  let bl := lowerChars c.body
  match c.startAnchor, c.endAnchor with
  | true, true => sl == bl
  | true, false => bl.isPrefixOf sl
  | false, true => bl.isSuffixOf sl
  | false, false => containsSub bl sl

/-! ### Filter Builder (spec sections 4.1 and 7) -/

/-- Error taxonomy of the core (spec section 7); the page and page-size
bounds carry their own kinds per the section 4.1 table. -/
inductive SearchError where
  | invalidInput
  | invalidRange
  | invalidPage
  | invalidPageSize
  | invalidPattern
  | patternTimeout
deriving DecidableEq

/-- Keyword predicate carried by a validated descriptor. -/
inductive KeywordMatcher where
  | plain (keyword : List Char)
  | pattern (compiled : CompiledPattern)
deriving DecidableEq

inductive SortBy where
  | date
  | price
deriving DecidableEq

inductive SortOrder where
  | asc
  | desc
deriving DecidableEq

/-- Raw inbound search request, before validation.  Absent optional
fields are `none`. -/
structure RawRequest where
  keyword : String
  supermarket : Option String
  dateFrom : Option String
  dateTo : Option String
  sortBy : Option SortBy
  sortOrder : Option SortOrder
  page : Option Int
  pageSize : Option Int
  useRegex : Bool

/-- Canonical, immutable query descriptor produced by the Filter
Builder. -/
structure Descriptor where
  matcher : KeywordMatcher
  supermarket : Option String
  dateFrom : Option Date
  dateTo : Option Date
  sortBy : SortBy
  sortOrder : SortOrder
  page : Nat
  pageSize : Nat
deriving DecidableEq

/-- Parse an optional date string; a present but malformed date is
`InvalidInput` (bad date format). -/
def parseOptDate (s? : Option String) : Except SearchError (Option Date) :=
  match s? with
  | none => .ok none
  | some s =>
    match parseDate s with
    | none => .error .invalidInput
    | some d => .ok (some d)

/-- Check `dateFrom ≤ dateTo` when both ends are present. -/
def checkRange (df dt : Option Date) : Except SearchError Unit :=
  match df, dt with
  | some a, some b => if b.key < a.key then .error .invalidRange else .ok ()
  | _, _ => .ok ()

/-- Modelled from the spec: the Filter Builder (section 4.1 table plus
section 7 taxonomy).  Validates and normalizes a raw request into a
canonical descriptor, performing no I/O: empty-after-trim keyword and
malformed dates fail with `InvalidInput`, `dateFrom > dateTo` with
`InvalidRange`, `page < 1` with `InvalidPage`, an explicit `pageSize`
outside `[1, 100]` with `InvalidPageSize`; `page` defaults to 1,
`pageSize` to 20, `sortBy` to date, `sortOrder` to descending; with
`useRegex` the keyword is compiled, failure yielding
`InvalidPattern`. -/
def validate (raw : RawRequest) : Except SearchError Descriptor :=
  if strTrim raw.keyword = "" then .error .invalidInput else
  match parseOptDate raw.dateFrom with
  | .error e => .error e
  | .ok df =>
    match parseOptDate raw.dateTo with
    | .error e => .error e
    | .ok dt =>
      match checkRange df dt with
      | .error e => .error e
      | .ok _ =>
        if raw.page.getD 1 < 1 then .error .invalidPage else
        if raw.pageSize.getD 20 < 1 ∨ 100 < raw.pageSize.getD 20 then
          .error .invalidPageSize else
        match (if raw.useRegex then
                 match compilePattern (strTrim raw.keyword).toList with
                 | none => Except.error SearchError.invalidPattern
                 | some c => Except.ok (KeywordMatcher.pattern c)
               else Except.ok (KeywordMatcher.plain (strTrim raw.keyword).toList)) with
        | .error e => .error e
        | .ok matcher =>
          .ok { matcher := matcher
                supermarket := raw.supermarket
                dateFrom := df
                dateTo := dt
                sortBy := raw.sortBy.getD .date
                sortOrder := raw.sortOrder.getD .desc
                page := (raw.page.getD 1).toNat
                pageSize := (raw.pageSize.getD 20).toNat }

/-! ### Search Executor (spec section 4.2) -/

/-- Modelled from the spec: keyword predicate of one item, matched
against the name OR brand of the item.  The timeout oracle `tmo` abstracts
the per-item execution-time budget of section 4.1: `tmo i = true` means
matching the compiled pattern against item `i` exceeds the budget,
which surfaces `PatternTimeout`.  Plain substring matching has no
budget. -/
def matchKeyword (tmo : Item → Bool) (m : KeywordMatcher) (i : Item) :
    Except SearchError Bool :=
  match m with
  | .plain kw =>
    .ok (containsSub (lowerChars kw) (lowerStr i.name) ||
         (match i.brand with
          | some b => containsSub (lowerChars kw) (lowerStr b)
          | none => false))
  | .pattern c =>
    if tmo i then .error .patternTimeout
    else .ok (matchCompiled c i.name.toList ||
              (match i.brand with
               | some b => matchCompiled c b.toList
               | none => false))

/-- Supermarket filter: exact case-insensitive match against the parent
supermarket of the parent receipt. -/
def smOk (sm? : Option String) (i : Item) : Bool :=
  match sm? with
  | none => true
  | some s => lowerStr i.receipt.supermarketName == lowerStr s

/-- Date-range filter against the purchase date of the parent receipt,
inclusive at both ends. -/
def dateOk (df dt : Option Date) (i : Item) : Bool :=
  (match df with
   | none => true
   | some a => decide (a.key ≤ i.receipt.purchaseDate.key)) &&
  (match dt with
   | none => true
   | some b => decide (i.receipt.purchaseDate.key ≤ b.key))

/-- Conjunction of the keyword, supermarket and date filters on one
item. -/
def matchItem (tmo : Item → Bool) (m : KeywordMatcher) (sm? : Option String)
    (df dt : Option Date) (i : Item) : Except SearchError Bool :=
  match matchKeyword tmo m i with
  | .error e => .error e
  | .ok kw => .ok (kw && smOk sm? i && dateOk df dt i)

/-- Modelled from the spec: scan all items owned by the user, keeping
those matching the filter conjunction; the first per-item timeout
aborts the whole scan. -/
def scanItems (tmo : Item → Bool) (m : KeywordMatcher) (sm? : Option String)
    (df dt : Option Date) : List Item → Except SearchError (List Item)
  | [] => .ok []
  | i :: rest =>
    match matchItem tmo m sm? df dt i with
    | .error e => .error e
    | .ok b =>
      match scanItems tmo m sm? df dt rest with
      | .error e => .error e
      | .ok tail => .ok (if b then i :: tail else tail)

/-- Primary sort key selected by `sortBy`: purchase date or price. -/
def primary (d : Descriptor) (i : Item) : Int :=
  match d.sortBy with
  | .date => i.receipt.purchaseDate.key
  | .price => i.price

/-- Strict comparison on the primary key in the requested direction. -/
def primaryLtB (d : Descriptor) (a b : Item) : Bool :=
  match d.sortOrder with
  | .asc => decide (primary d a < primary d b)
  | .desc => decide (primary d b < primary d a)

/-- Modelled from the spec: the sort relation of the Search Executor —
primary key per `sortBy` in the requested direction, ties broken by
item identifier ascending regardless of the direction. -/
def itemLeB (d : Descriptor) (a b : Item) : Bool :=
  primaryLtB d a b || (decide (primary d a = primary d b) && decide (a.id ≤ b.id))

/-- Strict version of `itemLeB` (identifier tie-break strict). -/
def itemLtB (d : Descriptor) (a b : Item) : Bool :=
  primaryLtB d a b || (decide (primary d a = primary d b) && decide (a.id < b.id))

def itemLe (d : Descriptor) (a b : Item) : Prop := itemLeB d a b = true

def itemLt (d : Descriptor) (a b : Item) : Prop := itemLtB d a b = true

instance (d : Descriptor) : DecidableRel (itemLe d) :=
  fun a b => inferInstanceAs (Decidable (itemLeB d a b = true))

instance (d : Descriptor) : DecidableRel (itemLt d) :=
  fun a b => inferInstanceAs (Decidable (itemLtB d a b = true))

instance (d : Descriptor) : IsTotal Item (itemLe d) := by
  constructor
  intro a b
  unfold itemLe itemLeB primaryLtB
  cases d.sortOrder <;> simp <;> omega

instance (d : Descriptor) : IsTrans Item (itemLe d) := by
  constructor
  intro a b c
  unfold itemLe itemLeB primaryLtB
  cases d.sortOrder <;> simp <;> omega

instance (d : Descriptor) : IsAntisymm Item (itemLt d) := by
  constructor
  intro a b h1 h2
  unfold itemLt itemLtB primaryLtB at h1 h2
  exfalso
  cases hso : d.sortOrder <;> rw [hso] at h1 h2 <;> simp at h1 h2 <;> omega

/-- Deterministic sort of the matched items. -/
def sortItems (d : Descriptor) (l : List Item) : List Item :=
  List.insertionSort (itemLe d) l

/-! ### Pagination Controller (spec section 4.4) -/

/-- Modelled from the spec: page count, the ceiling of
`total / pageSize` computed in integer arithmetic, zero when `total`
is zero. -/
def totalPagesOf (total ps : Nat) : Nat := (total + ps - 1) / ps

/-- Modelled from the spec: the slice
`[(page - 1) * pageSize, page * pageSize)` of an ordered sequence. -/
def paginate {α : Type} (l : List α) (page ps : Nat) : List α :=
  (l.drop ((page - 1) * ps)).take ps

/-- Search response packaged for the caller. -/
structure SearchResponse where
  results : List Item
  total : Nat
  totalPages : Nat
  page : Nat
deriving DecidableEq

/-- Modelled from the spec: execute a validated descriptor against a
store snapshot — scan, sort, count before pagination, slice. -/
def runDescriptor (tmo : Item → Bool) (d : Descriptor) (store : Store) :
    Except SearchError SearchResponse :=
  match scanItems tmo d.matcher d.supermarket d.dateFrom d.dateTo store with
  | .error e => .error e
  | .ok matched =>
    .ok { results := paginate (sortItems d matched) d.page d.pageSize
          total := matched.length
          totalPages := totalPagesOf matched.length d.pageSize
          page := d.page }

/-- Full pipeline: Filter Builder then Search Executor then Pagination
Controller.  Validation happens before any store access. -/
def searchPipeline (tmo : Item → Bool) (raw : RawRequest) (store : Store) :
    Except SearchError SearchResponse :=
  match validate raw with
  | .error e => .error e
  | .ok d => runDescriptor tmo d store

/-! ### Price History Aggregator (spec section 4.3) -/

/-- One (date, price, currency, supermarket) observation of a named
item, derived from an item and its receipt. -/
structure PricePoint where
  id : Nat
  date : Date
  price : Int
  currency : String
  supermarketName : String
deriving DecidableEq

/-- Price point derived from an item and its parent receipt. -/
def pointOf (i : Item) : PricePoint :=
  { id := i.id
    date := i.receipt.purchaseDate
    price := i.price
    currency := i.receipt.currency
    supermarketName := i.receipt.supermarketName }

/-- Case-insensitive exact match (not substring) of an item name. -/
def nameMatches (itemName : String) (i : Item) : Bool :=
  lowerStr i.name == lowerStr itemName

/-- Items contributing to the history of `itemName`, optionally scoped
to one supermarket. -/
def historyFilter (store : Store) (itemName : String) (sm? : Option String) :
    List Item :=
  store.filter (fun i => nameMatches itemName i && smOk sm? i)

/-- History order: date ascending, ties by item identifier ascending. -/
def ptLeB (a b : PricePoint) : Bool :=
  decide (a.date.key < b.date.key) ||
    (decide (a.date.key = b.date.key) && decide (a.id ≤ b.id))

def ptLe (a b : PricePoint) : Prop := ptLeB a b = true

instance : DecidableRel ptLe :=
  fun a b => inferInstanceAs (Decidable (ptLeB a b = true))

/-- Preference order for the lowest-price slot: minimal price, ties
broken by earliest date, then by item identifier. -/
def ptLtMin (a b : PricePoint) : Bool :=
  decide (a.price < b.price) ||
    (decide (a.price = b.price) &&
      (decide (a.date.key < b.date.key) ||
        (decide (a.date.key = b.date.key) && decide (a.id < b.id))))

/-- Preference order for the highest-price slot: maximal price, ties
broken by earliest date, then by item identifier. -/
def ptLtMax (a b : PricePoint) : Bool :=
  decide (b.price < a.price) ||
    (decide (a.price = b.price) &&
      (decide (a.date.key < b.date.key) ||
        (decide (a.date.key = b.date.key) && decide (a.id < b.id))))

/-- Fold selecting the preferred point under a strict preference. -/
def pickBest (better : PricePoint → PricePoint → Bool) (p : PricePoint)
    (l : List PricePoint) : PricePoint :=
  l.foldl (fun acc q => if better q acc then q else acc) p

def lowestOf : List PricePoint → Option PricePoint
  | [] => none
  | p :: rest => some (pickBest ptLtMin p rest)

def highestOf : List PricePoint → Option PricePoint
  | [] => none
  | p :: rest => some (pickBest ptLtMax p rest)

/-- Whether the point set spans more than one currency code. -/
def mixedCur : List PricePoint → Bool
  | [] => false
  | p :: rest => rest.any (fun q => q.currency != p.currency)

/-- Exact arithmetic mean of the prices, only when all points share a
single currency; `none` otherwise and on an empty set. -/
def avgOf (pts : List PricePoint) : Option ℚ :=
  if pts.isEmpty || mixedCur pts then none
  else some ((pts.map (fun p => (p.price : ℚ))).sum / pts.length)

/-- Price-history response. -/
structure HistoryResponse where
  itemName : String
  history : List PricePoint
  lowestPrice : Option PricePoint
  highestPrice : Option PricePoint
  averagePrice : Option ℚ
  mixedCurrencies : Bool
deriving DecidableEq

/-- Modelled from the spec: `GetPriceHistory` (section 4.3).  Collects
all matching price points for one item name (case-insensitive exact
match), optionally scoped to one supermarket; orders them by date
ascending with identifier tie-break; computes lowest/highest by
numeric price with the documented tie-breaks; averages only over a
single currency, flagging mixed currencies instead of converting.  An
empty match is a normal response, never an error. -/
def getPriceHistory (store : Store) (itemName : String) (sm? : Option String) :
    Except SearchError HistoryResponse :=
  let pts := (historyFilter store itemName sm?).map pointOf
  .ok { itemName := itemName
        history := List.insertionSort ptLe pts
        lowestPrice := lowestOf pts
        highestPrice := highestOf pts
        averagePrice := avgOf pts
        mixedCurrencies := mixedCur pts }

/-! ### Frontend search page (embedded from `frontend/src/pages/Search.jsx`) -/

/-- Payload of a successful `/search` response as consumed by the page
(`data.results`, `data.total`, `data.total_pages`). -/
structure SearchData where
  results : List Item
  total : Nat
  total_pages : Nat
deriving DecidableEq

/-- Outcome of the `searchService.search` call: the promise resolves
with data or rejects. -/
inductive ApiOutcome where
  | success (data : SearchData)
  | failure

/-- State held by the `Search` component (Search.jsx lines 10-27). -/
structure SearchPageState where
  keyword : String
  supermarket : String
  dateFrom : String
  dateTo : String
  sortBy : String
  sortOrder : String
  results : List Item
  total : Nat
  page : Nat
  totalPages : Nat
  loading : Bool
  searched : Bool
deriving DecidableEq

/-- Embedded from `handleSearch` (Search.jsx lines 43-72): bail out on
an empty trimmed keyword; otherwise set `loading` and `searched`, then
on success store `results`, `total` and `total_pages`, and on a
rejected request store an empty result list and zero total; `loading`
is cleared in the `finally` block either way. -/
def handleSearch (s : SearchPageState) (outcome : ApiOutcome) : SearchPageState :=
  if strTrim s.keyword = "" then s
  else
    let s1 := { s with loading := true, searched := true }
    match outcome with
    | .success d =>
      { s1 with results := d.results, total := d.total,
                totalPages := d.total_pages, loading := false }
    | .failure =>
      { s1 with results := [], total := 0, loading := false }

/-! ### Sample data used by concrete witnesses -/

/-- Receipt of the spec section 8 scenario: StoreA, 2024-01-01, USD. -/
def receiptA : Receipt :=
  { supermarketName := "StoreA", purchaseDate := ⟨2024, 1, 1⟩, currency := "USD" }

/-- Receipt of the spec section 8 scenario: StoreB, 2024-02-01, USD. -/
def receiptB : Receipt :=
  { supermarketName := "StoreB", purchaseDate := ⟨2024, 2, 1⟩, currency := "USD" }

/-- Variant of `receiptB` priced in euros (mixed-currency scenario). -/
def receiptBEur : Receipt :=
  { supermarketName := "StoreB", purchaseDate := ⟨2024, 2, 1⟩, currency := "EUR" }

/-- Eggs at 3.50 (350 minor units) from `receiptA`. -/
def itemEggsA : Item :=
  { id := 1, name := "Eggs", brand := none, price := 350, quantity := 1,
    receipt := receiptA }

/-- Eggs at 4.20 (420 minor units) from `receiptB`. -/
def itemEggsB : Item :=
  { id := 2, name := "Eggs", brand := none, price := 420, quantity := 1,
    receipt := receiptB }

/-- Eggs at 4.20 (420 minor units) from the euro receipt. -/
def itemEggsBEur : Item :=
  { id := 2, name := "Eggs", brand := none, price := 420, quantity := 1,
    receipt := receiptBEur }

/-- Whole Milk item (substring-match scenario). -/
def itemMilk : Item :=
  { id := 3, name := "Whole Milk", brand := none, price := 250, quantity := 1,
    receipt := receiptA }

/-- Item whose brand, not name, carries the keyword. -/
def itemMilkland : Item :=
  { id := 4, name := "Butter", brand := some "Milkland", price := 300, quantity := 1,
    receipt := receiptA }

/-- Item named bread (regex scenario). -/
def itemBread : Item :=
  { id := 5, name := "BREAD", brand := none, price := 120, quantity := 1,
    receipt := receiptA }

/-- Item named breadsticks (regex scenario). -/
def itemBreadsticks : Item :=
  { id := 6, name := "breadsticks", brand := none, price := 180, quantity := 1,
    receipt := receiptA }

/-- Request whose keyword is blank after trimming. -/
def rawEmptyKw : RawRequest :=
  { keyword := "   ", supermarket := none, dateFrom := none, dateTo := none,
    sortBy := none, sortOrder := none, page := none, pageSize := none,
    useRegex := false }

/-- Regex request whose pattern (a lone opening parenthesis) fails to
compile. -/
def rawBadPattern : RawRequest :=
  { keyword := "(", supermarket := none, dateFrom := none, dateTo := none,
    sortBy := none, sortOrder := none, page := none, pageSize := none,
    useRegex := true }

/-- Sample descriptor: keyword eggs, price descending, first page. -/
def descEggs : Descriptor :=
  { matcher := .plain "eggs".toList
    supermarket := none
    dateFrom := none
    dateTo := none
    sortBy := .price
    sortOrder := .desc
    page := 1
    pageSize := 20 }

/-- Expected price-history response of the mixed-currency scenario
(spec section 8): eggs at 3.50 USD and 4.20 EUR. -/
def respC3 : HistoryResponse :=
  { itemName := "Eggs"
    history := [pointOf itemEggsA, pointOf itemEggsBEur]
    lowestPrice := some (pointOf itemEggsA)
    highestPrice := some (pointOf itemEggsBEur)
    averagePrice := none
    mixedCurrencies := true }

/-- Search-page state with a non-blank keyword, used by the state
machine witness. -/
def pageStateMilk : SearchPageState :=
  { keyword := "milk", supermarket := "", dateFrom := "", dateTo := "",
    sortBy := "date", sortOrder := "desc", results := [], total := 0,
    page := 1, totalPages := 0, loading := false, searched := false }

/-- Successful search payload with three pages, used by the staleness
witness. -/
def dataMilk : SearchData :=
  { results := [itemMilk], total := 45, total_pages := 3 }

/-! ## Theorems -/

/-! ### Substring machinery -/

theorem containsSub_iff (needle hay : List Char) :
    containsSub needle hay = true ↔ ∃ pre post, hay = pre ++ needle ++ post := by
  induction hay with
  | nil =>
    simp only [containsSub, List.isEmpty_iff]
    constructor
    · rintro rfl; exact ⟨[], [], rfl⟩
    · rintro ⟨pre, post, h⟩
      rcases List.append_eq_nil.mp h.symm with ⟨h1, h2⟩
      exact (List.append_eq_nil.mp h1).2
  | cons c t ih =>
    simp only [containsSub, Bool.or_eq_true, ih]
    constructor
    · rintro (hpre | ⟨pre, post, rfl⟩)
      · rcases List.isPrefixOf_iff_prefix.mp hpre with ⟨post, hp⟩
        exact ⟨[], post, by simpa using hp.symm⟩
      · exact ⟨c :: pre, post, rfl⟩
    · rintro ⟨pre, post, hp⟩
      cases pre with
      | nil =>
        left
        exact List.isPrefixOf_iff_prefix.mpr ⟨post, by simpa using hp.symm⟩
      | cons p ps =>
        right
        refine ⟨ps, post, ?_⟩
        have := hp
        simp only [List.cons_append] at this
        exact (List.cons.injEq .. ▸ this).2

/-! ### Pagination lemmas -/

theorem totalPagesOf_eq_ceilDiv (n ps : Nat) : totalPagesOf n ps = n ⌈/⌉ ps := rfl

theorem le_totalPagesOf_mul (n ps : Nat) (hps : 1 ≤ ps) :
    n ≤ totalPagesOf n ps * ps := by
  have h := le_smul_ceilDiv (a := ps) (b := n) hps
  rw [smul_eq_mul] at h
  rw [totalPagesOf_eq_ceilDiv, Nat.mul_comm]
  exact h

theorem totalPagesOf_pos_eq (n ps : Nat) (hps : 1 ≤ ps) (hn : 1 ≤ n) :
    totalPagesOf n ps = (n - 1) / ps + 1 := by
  unfold totalPagesOf
  have h2 : n + ps - 1 = (n - 1) + ps := by omega
  rw [h2, Nat.add_div_right _ hps]

theorem totalPagesOf_zero_iff (n ps : Nat) (hps : 1 ≤ ps) :
    totalPagesOf n ps = 0 ↔ n = 0 := by
  constructor
  · intro h
    by_contra hn
    rw [totalPagesOf_pos_eq n ps hps (by omega)] at h
    exact Nat.succ_ne_zero _ h
  · intro h
    subst h
    unfold totalPagesOf
    rw [Nat.div_eq_zero_iff hps]
    omega

theorem totalPagesOf_step (n ps : Nat) (hps : 1 ≤ ps) (hn : 1 ≤ n) :
    totalPagesOf n ps = totalPagesOf (n - ps) ps + 1 := by
  rcases Nat.lt_or_ge ps n with h | h
  · rw [totalPagesOf_pos_eq n ps hps hn, totalPagesOf_pos_eq (n - ps) ps hps (by omega)]
    have h2 : n - 1 = (n - ps - 1) + ps := by omega
    rw [h2, Nat.add_div_right _ hps]
  · have h1 : n - ps = 0 := by omega
    have h2 : (n - 1) / ps = 0 := (Nat.div_eq_zero_iff hps).mpr (by omega)
    rw [h1, totalPagesOf_pos_eq n ps hps hn, h2, (totalPagesOf_zero_iff 0 ps hps).mpr rfl]

theorem paginate_window {α : Type} (l : List α) (page ps j : Nat) :
    (paginate l page ps)[j]? = if j < ps then l[(page - 1) * ps + j]? else none := by
  unfold paginate
  by_cases hj : j < ps
  · rw [if_pos hj, List.getElem?_take_of_lt hj, List.getElem?_drop]
  · rw [if_neg hj]
    apply List.getElem?_eq_none
    rw [List.length_take]
    omega

theorem paginate_one {α : Type} (l : List α) (ps : Nat) :
    paginate l 1 ps = l.take ps := by
  unfold paginate
  simp

theorem paginate_shift {α : Type} (l : List α) (k ps : Nat) :
    paginate l (k + 2) ps = paginate (l.drop ps) (k + 1) ps := by
  unfold paginate
  rw [List.drop_drop]
  have h : ps + (k + 1 - 1) * ps = (k + 2 - 1) * ps := by
    have e1 : k + 1 - 1 = k := by omega
    have e2 : k + 2 - 1 = k + 1 := by omega
    rw [e1, e2, Nat.add_mul, Nat.one_mul, Nat.add_comm]
  rw [h]

theorem paginate_out_of_range {α : Type} (l : List α) (page ps : Nat) (hps : 1 ≤ ps)
    (h : totalPagesOf l.length ps < page) : paginate l page ps = [] := by
  unfold paginate
  have h1 : l.length ≤ (page - 1) * ps := by
    calc l.length ≤ totalPagesOf l.length ps * ps := le_totalPagesOf_mul _ _ hps
    _ ≤ (page - 1) * ps := Nat.mul_le_mul_right ps (by omega)
  rw [List.drop_eq_nil_of_le h1, List.take_nil]

theorem flatten_paginate {α : Type} (ps : Nat) (hps : 1 ≤ ps) (t : Nat) :
    ∀ l : List α, totalPagesOf l.length ps = t →
      ((List.range t).map fun k => paginate l (k + 1) ps).flatten = l := by
  induction t with
  | zero =>
    intro l h
    have h0 : l.length = 0 := (totalPagesOf_zero_iff _ _ hps).mp h
    rw [List.length_eq_zero.mp h0]
    simp
  | succ t ih =>
    intro l h
    have hn : 1 ≤ l.length := by
      by_contra hc
      have h0 : l.length = 0 := by omega
      rw [h0, (totalPagesOf_zero_iff 0 ps hps).mpr rfl] at h
      omega
    have step : totalPagesOf (l.drop ps).length ps = t := by
      rw [List.length_drop]
      have := totalPagesOf_step l.length ps hps hn
      omega
    rw [List.range_succ_eq_map]
    simp only [List.map_cons, List.flatten_cons, List.map_map]
    have hhead : paginate l (0 + 1) ps = l.take ps := by
      rw [Nat.zero_add, paginate_one]
    have htail : (List.range t).map ((fun k => paginate l (k + 1) ps) ∘ Nat.succ) =
        (List.range t).map fun k => paginate (l.drop ps) (k + 1) ps := by
      apply List.map_congr_left
      intro k _
      show paginate l (k + 1 + 1) ps = paginate (l.drop ps) (k + 1) ps
      exact paginate_shift l k ps
    rw [hhead, htail, ih (l.drop ps) step, List.take_append_drop]

/-- Claim C1: for every search request with valid parameters, the
returned `totalPages` equals the ceiling of `totalMatched / pageSize`,
and `totalPages = 0` if and only if `totalMatched = 0`. -/
theorem claim_C1_totalPages (total ps : Nat) (hps : 1 ≤ ps) :
    totalPagesOf total ps = ⌈(total : ℚ) / (ps : ℚ)⌉₊ ∧
      (totalPagesOf total ps = 0 ↔ total = 0) := by
  have hps0 : 0 < ps := hps
  have hq : (0 : ℚ) < (ps : ℚ) := by exact_mod_cast hps0
  refine ⟨?_, totalPagesOf_zero_iff total ps hps⟩
  apply eq_of_forall_ge_iff
  intro n
  rw [totalPagesOf_eq_ceilDiv, ceilDiv_le_iff_le_mul hps0, Nat.ceil_le, div_le_iff₀ hq,
      Nat.mul_comm]
  constructor
  · intro h
    exact_mod_cast h
  · intro h
    exact_mod_cast h

theorem claim_C1_witness :
    1 ≤ 20 ∧
      (totalPagesOf 45 20 = ⌈(45 : ℚ) / (20 : ℚ)⌉₊ ∧
        (totalPagesOf 45 20 = 0 ↔ 45 = 0)) :=
  ⟨by decide, claim_C1_totalPages 45 20 (by decide)⟩

theorem runDescriptor_page_invariant (tmo : Item → Bool) (d : Descriptor)
    (store : Store) (res : SearchResponse) (p : Nat)
    (h : runDescriptor tmo d store = .ok res) :
    ∃ res2, runDescriptor tmo { d with page := p } store = .ok res2 ∧
      res2.total = res.total := by
  unfold runDescriptor at h ⊢
  cases hscan : scanItems tmo d.matcher d.supermarket d.dateFrom d.dateTo store with
  | error e =>
    rw [hscan] at h
    cases h
  | ok matched =>
    rw [hscan] at h
    simp only [Except.ok.injEq] at h
    subst h
    refine ⟨{ results := paginate (sortItems { d with page := p } matched) p d.pageSize,
              total := matched.length,
              totalPages := totalPagesOf matched.length d.pageSize,
              page := p }, ?_, rfl⟩
    dsimp only


/-- Claim C2: for every fixed store snapshot and valid descriptor, the
page returned is exactly the half-open window
`[(page-1)*pageSize, page*pageSize)` of the sorted matched sequence;
concatenating the slices for pages `1..totalPages` yields the full
sorted result with each matched item exactly once, any page beyond the
last yields an empty slice, and re-running the same descriptor with a
different page succeeds with the same total. -/
theorem claim_C2_pagination (ps : Nat) (hps : 1 ≤ ps) (l : List Item) :
    (∀ page j, (paginate l page ps)[j]? =
        if j < ps then l[(page - 1) * ps + j]? else none) ∧
    (((List.range (totalPagesOf l.length ps)).map
        fun k => paginate l (k + 1) ps).flatten = l) ∧
    (∀ page, totalPagesOf l.length ps < page → paginate l page ps = []) ∧
    (∀ (tmo : Item → Bool) (d : Descriptor) (store : Store)
        (res : SearchResponse) (p : Nat),
      runDescriptor tmo d store = .ok res →
        ∃ res2, runDescriptor tmo { d with page := p } store = .ok res2 ∧
          res2.total = res.total) :=
  ⟨fun page j => paginate_window l page ps j,
   flatten_paginate ps hps _ l rfl,
   fun page hp => paginate_out_of_range l page ps hps hp,
   fun tmo d store res p h => runDescriptor_page_invariant tmo d store res p h⟩

theorem claim_C2_witness :
    1 ≤ 2 ∧
      ((∀ page j, (paginate [itemEggsA, itemEggsB, itemMilk] page 2)[j]? =
          if j < 2 then [itemEggsA, itemEggsB, itemMilk][(page - 1) * 2 + j]? else none) ∧
       (((List.range (totalPagesOf [itemEggsA, itemEggsB, itemMilk].length 2)).map
           fun k => paginate [itemEggsA, itemEggsB, itemMilk] (k + 1) 2).flatten =
         [itemEggsA, itemEggsB, itemMilk]) ∧
       (∀ page, totalPagesOf [itemEggsA, itemEggsB, itemMilk].length 2 < page →
         paginate [itemEggsA, itemEggsB, itemMilk] page 2 = []) ∧
       (∀ (tmo : Item → Bool) (d : Descriptor) (store : Store)
           (res : SearchResponse) (p : Nat),
         runDescriptor tmo d store = .ok res →
           ∃ res2, runDescriptor tmo { d with page := p } store = .ok res2 ∧
             res2.total = res.total)) :=
  ⟨by decide, claim_C2_pagination 2 (by decide) [itemEggsA, itemEggsB, itemMilk]⟩

/-! ### Deterministic sorting (Search Executor) -/

theorem sortItems_perm (d : Descriptor) (l : List Item) : List.Perm (sortItems d l) l :=
  List.perm_insertionSort _ l

theorem sortItems_sorted (d : Descriptor) (l : List Item) :
    (sortItems d l).Sorted (itemLe d) :=
  List.sorted_insertionSort _ l

theorem itemLe_and_ne_imp_lt (d : Descriptor) (a b : Item)
    (hle : itemLe d a b) (hne : a.id ≠ b.id) : itemLt d a b := by
  simp only [itemLe, itemLeB, Bool.or_eq_true, Bool.and_eq_true, decide_eq_true_eq] at hle
  simp only [itemLt, itemLtB, Bool.or_eq_true, Bool.and_eq_true, decide_eq_true_eq]
  rcases hle with h | ⟨h1, h2⟩
  · exact Or.inl h
  · exact Or.inr ⟨h1, lt_of_le_of_ne h2 hne⟩

theorem sortItems_sorted_strict (d : Descriptor) (l : List Item)
    (hids : l.Pairwise fun a b => a.id ≠ b.id) :
    (sortItems d l).Sorted (itemLt d) := by
  have hperm : List.Perm (sortItems d l) l := sortItems_perm d l
  have hids2 : (sortItems d l).Pairwise fun a b => a.id ≠ b.id :=
    (List.Perm.pairwise_iff (fun h => Ne.symm h) hperm).mpr hids
  have hs := sortItems_sorted d l
  exact (List.Pairwise.and hs hids2).imp
    fun hab => itemLe_and_ne_imp_lt d _ _ hab.1 hab.2

/-- Claim C5: over an unchanged dataset, search results are ordered by
the primary key selected by `sortBy` in the requested direction, with
ties broken by item identifier ascending regardless of direction; when
item identifiers are distinct the sorted sequence satisfying that
order is unique, so two identical calls over the same snapshot return
the identical order. -/
theorem claim_C5_deterministic_sort (d : Descriptor) (l : List Item)
    (hids : l.Pairwise fun a b => a.id ≠ b.id) :
    List.Perm (sortItems d l) l ∧
    (sortItems d l).Sorted (itemLe d) ∧
    (sortItems d l).Sorted (itemLt d) ∧
    ∀ l2, List.Perm l2 l → l2.Sorted (itemLt d) → l2 = sortItems d l := by
  refine ⟨sortItems_perm d l, sortItems_sorted d l,
    sortItems_sorted_strict d l hids, ?_⟩
  intro l2 hp hs
  exact List.eq_of_perm_of_sorted (hp.trans (sortItems_perm d l).symm) hs
    (sortItems_sorted_strict d l hids)

theorem claim_C5_witness :
    ([itemEggsA, itemEggsB, itemMilk].Pairwise fun a b => a.id ≠ b.id) ∧
      (List.Perm (sortItems descEggs [itemEggsA, itemEggsB, itemMilk])
          [itemEggsA, itemEggsB, itemMilk] ∧
        (sortItems descEggs [itemEggsA, itemEggsB, itemMilk]).Sorted (itemLe descEggs) ∧
        (sortItems descEggs [itemEggsA, itemEggsB, itemMilk]).Sorted (itemLt descEggs) ∧
        ∀ l2, List.Perm l2 [itemEggsA, itemEggsB, itemMilk] → l2.Sorted (itemLt descEggs) →
          l2 = sortItems descEggs [itemEggsA, itemEggsB, itemMilk]) :=
  ⟨by decide, claim_C5_deterministic_sort descEggs [itemEggsA, itemEggsB, itemMilk]
    (by decide)⟩

/-! ### Keyword matching -/

theorem matchKeyword_plain_iff (tmo : Item → Bool) (kw : List Char) (i : Item) :
    matchKeyword tmo (.plain kw) i = .ok true ↔
      (∃ pre post, lowerStr i.name = pre ++ lowerChars kw ++ post) ∨
      (∃ b, i.brand = some b ∧
        ∃ pre post, lowerStr b = pre ++ lowerChars kw ++ post) := by
  cases hb : i.brand with
  | none =>
    simp only [matchKeyword, hb, Except.ok.injEq, Bool.or_false, containsSub_iff]
    constructor
    · intro h
      exact Or.inl h
    · rintro (h | ⟨b, hb2, h⟩)
      · exact h
      · cases hb2
  | some b =>
    simp only [matchKeyword, hb, Except.ok.injEq, Bool.or_eq_true, containsSub_iff]
    constructor
    · rintro (h | h)
      · exact Or.inl h
      · exact Or.inr ⟨b, rfl, h⟩
    · rintro (h | ⟨b2, hb2, h⟩)
      · exact Or.inl h
      · cases hb2
        exact Or.inr h

/-- Claim C6: with `useRegex` false, the keyword matches an item if and
only if it is a case-insensitive substring of the name of the item or of its
brand (keyword milk matches name Whole Milk and brand Milkland); with
`useRegex` true the keyword compiles to a case-insensitive pattern, and
the pattern caret-bread-dollar matches only items named exactly bread
in any case, not breadsticks. -/
theorem claim_C6_keyword_matching (tmo : Item → Bool) (kw : List Char) (i : Item) :
    (matchKeyword tmo (.plain kw) i = .ok true ↔
      (∃ pre post, lowerStr i.name = pre ++ lowerChars kw ++ post) ∨
      (∃ b, i.brand = some b ∧
        ∃ pre post, lowerStr b = pre ++ lowerChars kw ++ post)) ∧
    (ciContains "milk" "Whole Milk" = true ∧
     ciContains "milk" "Milkland" = true ∧
     matchKeyword (fun _ => false) (.plain "milk".toList) itemMilk = .ok true ∧
     matchKeyword (fun _ => false) (.plain "milk".toList) itemMilkland = .ok true) ∧
    (∃ c, compilePattern "^bread$".toList = some c ∧
      matchCompiled c "bread".toList = true ∧
      matchCompiled c "BREAD".toList = true ∧
      matchCompiled c "Bread".toList = true ∧
      matchCompiled c "breadsticks".toList = false ∧
      matchKeyword (fun _ => false) (.pattern c) itemBread = .ok true ∧
      matchKeyword (fun _ => false) (.pattern c) itemBreadsticks = .ok false) := by
  refine ⟨matchKeyword_plain_iff tmo kw i, ⟨by decide, by decide, rfl, rfl⟩, ?_⟩
  exact ⟨⟨true, true, "bread".toList⟩, by decide, by decide, by decide, by decide,
    by decide, rfl, rfl⟩

/-! ### Filter Builder validation -/

theorem validate_err_frame (raw : RawRequest) (e : SearchError)
    (h : validate raw = .error e) (tmo : Item → Bool) (store : Store) :
    searchPipeline tmo raw store = .error e := by
  unfold searchPipeline
  rw [h]

theorem validate_empty_keyword (raw : RawRequest) (h : strTrim raw.keyword = "") :
    validate raw = .error .invalidInput := by
  simp [validate, h]

theorem validate_bad_dateFrom (raw : RawRequest) (s : String)
    (h1 : strTrim raw.keyword ≠ "") (h2 : raw.dateFrom = some s)
    (h3 : parseDate s = none) : validate raw = .error .invalidInput := by
  unfold validate
  rw [if_neg h1]
  simp [parseOptDate, h2, h3]

theorem validate_bad_dateTo (raw : RawRequest) (s : String)
    (h1 : strTrim raw.keyword ≠ "") (h2 : raw.dateTo = some s)
    (h3 : parseDate s = none) (df : Option Date)
    (h4 : parseOptDate raw.dateFrom = .ok df) :
    validate raw = .error .invalidInput := by
  unfold validate
  rw [if_neg h1, h4]
  simp [parseOptDate, h2, h3]

theorem validate_invalid_range (raw : RawRequest) (a b : Date)
    (h1 : strTrim raw.keyword ≠ "")
    (h2 : parseOptDate raw.dateFrom = .ok (some a))
    (h3 : parseOptDate raw.dateTo = .ok (some b))
    (h4 : b.key < a.key) : validate raw = .error .invalidRange := by
  unfold validate
  rw [if_neg h1, h2, h3]
  simp [checkRange, h4]

theorem validate_invalid_page (raw : RawRequest) (df dt : Option Date)
    (h1 : strTrim raw.keyword ≠ "")
    (h2 : parseOptDate raw.dateFrom = .ok df)
    (h3 : parseOptDate raw.dateTo = .ok dt)
    (h4 : checkRange df dt = .ok ())
    (h5 : raw.page.getD 1 < 1) : validate raw = .error .invalidPage := by
  unfold validate
  rw [if_neg h1, h2, h3]
  dsimp only
  rw [h4]
  dsimp only
  rw [if_pos h5]

theorem validate_invalid_pageSize (raw : RawRequest) (df dt : Option Date)
    (h1 : strTrim raw.keyword ≠ "")
    (h2 : parseOptDate raw.dateFrom = .ok df)
    (h3 : parseOptDate raw.dateTo = .ok dt)
    (h4 : checkRange df dt = .ok ())
    (h5 : ¬ raw.page.getD 1 < 1)
    (h6 : raw.pageSize.getD 20 < 1 ∨ 100 < raw.pageSize.getD 20) :
    validate raw = .error .invalidPageSize := by
  unfold validate
  rw [if_neg h1, h2, h3]
  dsimp only
  rw [h4]
  dsimp only
  rw [if_neg h5, if_pos h6]

theorem validate_ok_bounds (raw : RawRequest) (d : Descriptor)
    (h : validate raw = .ok d) :
    1 ≤ d.pageSize ∧ d.pageSize ≤ 100 ∧
      (raw.pageSize = none → d.pageSize = 20) ∧
      1 ≤ d.page ∧ (raw.page = none → d.page = 1) := by
  unfold validate at h
  by_cases h0 : strTrim raw.keyword = ""
  · rw [if_pos h0] at h; cases h
  rw [if_neg h0] at h
  cases hdf : parseOptDate raw.dateFrom with
  | error e => rw [hdf] at h; cases h
  | ok df =>
  rw [hdf] at h
  dsimp only at h
  cases hdt : parseOptDate raw.dateTo with
  | error e => rw [hdt] at h; cases h
  | ok dt =>
  rw [hdt] at h
  dsimp only at h
  cases hcr : checkRange df dt with
  | error e => rw [hcr] at h; cases h
  | ok u =>
  cases u
  rw [hcr] at h
  dsimp only at h
  by_cases hp : raw.page.getD 1 < 1
  · rw [if_pos hp] at h; cases h
  rw [if_neg hp] at h
  by_cases hq : raw.pageSize.getD 20 < 1 ∨ 100 < raw.pageSize.getD 20
  · rw [if_pos hq] at h; cases h
  rw [if_neg hq] at h
  cases hm : (if raw.useRegex then
      match compilePattern (strTrim raw.keyword).toList with
      | none => Except.error SearchError.invalidPattern
      | some c => Except.ok (KeywordMatcher.pattern c)
    else Except.ok (KeywordMatcher.plain (strTrim raw.keyword).toList)) with
  | error e => rw [hm] at h; cases h
  | ok m =>
  rw [hm] at h
  dsimp only at h
  simp only [Except.ok.injEq] at h
  subst h
  refine ⟨?_, ?_, ?_, ?_, ?_⟩
  · dsimp only
    omega
  · dsimp only
    omega
  · intro hnone
    dsimp only
    rw [hnone]
    rfl
  · dsimp only
    omega
  · intro hnone
    dsimp only
    rw [hnone]
    rfl

/-- Claim C7: request validation rejects, before any Item Store access
and with no partial result, an empty-after-trim keyword and a malformed
date (InvalidInput), `dateFrom > dateTo` (InvalidRange), `page < 1`
(InvalidPage) and an explicit `pageSize` outside `[1, 100]`
(InvalidPageSize); otherwise `pageSize` defaults to 20 and always lies
within `[1, 100]`. -/
theorem claim_C7_validation :
    (∀ raw : RawRequest, strTrim raw.keyword = "" →
      validate raw = .error .invalidInput) ∧
    (∀ (raw : RawRequest) (s : String), strTrim raw.keyword ≠ "" →
      raw.dateFrom = some s → parseDate s = none →
      validate raw = .error .invalidInput) ∧
    (∀ (raw : RawRequest) (s : String) (df : Option Date), strTrim raw.keyword ≠ "" →
      raw.dateTo = some s → parseDate s = none → parseOptDate raw.dateFrom = .ok df →
      validate raw = .error .invalidInput) ∧
    (∀ (raw : RawRequest) (a b : Date), strTrim raw.keyword ≠ "" →
      parseOptDate raw.dateFrom = .ok (some a) → parseOptDate raw.dateTo = .ok (some b) →
      b.key < a.key → validate raw = .error .invalidRange) ∧
    (∀ (raw : RawRequest) (df dt : Option Date), strTrim raw.keyword ≠ "" →
      parseOptDate raw.dateFrom = .ok df → parseOptDate raw.dateTo = .ok dt →
      checkRange df dt = .ok () → raw.page.getD 1 < 1 →
      validate raw = .error .invalidPage) ∧
    (∀ (raw : RawRequest) (df dt : Option Date), strTrim raw.keyword ≠ "" →
      parseOptDate raw.dateFrom = .ok df → parseOptDate raw.dateTo = .ok dt →
      checkRange df dt = .ok () → ¬ raw.page.getD 1 < 1 →
      (raw.pageSize.getD 20 < 1 ∨ 100 < raw.pageSize.getD 20) →
      validate raw = .error .invalidPageSize) ∧
    (∀ (raw : RawRequest) (d : Descriptor), validate raw = .ok d →
      1 ≤ d.pageSize ∧ d.pageSize ≤ 100 ∧
        (raw.pageSize = none → d.pageSize = 20) ∧
        1 ≤ d.page ∧ (raw.page = none → d.page = 1)) ∧
    (∀ (raw : RawRequest) (e : SearchError) (tmo : Item → Bool) (store : Store),
      validate raw = .error e → searchPipeline tmo raw store = .error e) :=
  ⟨validate_empty_keyword,
   fun raw s h1 h2 h3 => validate_bad_dateFrom raw s h1 h2 h3,
   fun raw s df h1 h2 h3 h4 => validate_bad_dateTo raw s h1 h2 h3 df h4,
   fun raw a b h1 h2 h3 h4 => validate_invalid_range raw a b h1 h2 h3 h4,
   fun raw df dt h1 h2 h3 h4 h5 => validate_invalid_page raw df dt h1 h2 h3 h4 h5,
   fun raw df dt h1 h2 h3 h4 h5 h6 =>
     validate_invalid_pageSize raw df dt h1 h2 h3 h4 h5 h6,
   fun raw d h => validate_ok_bounds raw d h,
   fun raw e tmo store h => validate_err_frame raw e h tmo store⟩

theorem claim_C7_witness :
    strTrim rawEmptyKw.keyword = "" ∧ validate rawEmptyKw = .error .invalidInput :=
  ⟨by decide, claim_C7_validation.1 rawEmptyKw (by decide)⟩

/-! ### Regex error handling -/

theorem validate_invalid_pattern (raw : RawRequest) (df dt : Option Date)
    (h1 : strTrim raw.keyword ≠ "")
    (h2 : parseOptDate raw.dateFrom = .ok df)
    (h3 : parseOptDate raw.dateTo = .ok dt)
    (h4 : checkRange df dt = .ok ())
    (h5 : ¬ raw.page.getD 1 < 1)
    (h6 : ¬ (raw.pageSize.getD 20 < 1 ∨ 100 < raw.pageSize.getD 20))
    (h7 : raw.useRegex = true)
    (h8 : compilePattern (strTrim raw.keyword).toList = none) :
    validate raw = .error .invalidPattern := by
  unfold validate
  rw [if_neg h1, h2, h3]
  dsimp only
  rw [h4]
  dsimp only
  rw [if_neg h5, if_neg h6, h7]
  simp only [if_true]
  rw [h8]

theorem matchItem_timeout (tmo : Item → Bool) (c : CompiledPattern)
    (sm? : Option String) (df dt : Option Date) (i : Item) (htmo : tmo i = true) :
    matchItem tmo (.pattern c) sm? df dt i = .error .patternTimeout := by
  simp [matchItem, matchKeyword, htmo]

theorem matchItem_error_timeout (tmo : Item → Bool) (m : KeywordMatcher)
    (sm? : Option String) (df dt : Option Date) (i : Item) (e : SearchError)
    (h : matchItem tmo m sm? df dt i = .error e) : e = .patternTimeout := by
  cases m with
  | plain kw => simp [matchItem, matchKeyword] at h
  | pattern c =>
    by_cases ht : tmo i
    · rw [matchItem_timeout tmo c sm? df dt i ht] at h
      exact (Except.error.injEq .. ▸ h).symm
    · simp [matchItem, matchKeyword, ht] at h

theorem scanItems_timeout (tmo : Item → Bool) (c : CompiledPattern)
    (sm? : Option String) (df dt : Option Date) :
    ∀ (store : List Item) (i : Item), i ∈ store → tmo i = true →
      scanItems tmo (.pattern c) sm? df dt store = .error .patternTimeout := by
  intro store
  induction store with
  | nil =>
    intro i hi
    cases hi
  | cons a rest ih =>
    intro i hi htmo
    unfold scanItems
    cases hma : matchItem tmo (.pattern c) sm? df dt a with
    | error e =>
      rw [matchItem_error_timeout tmo _ sm? df dt a e hma]
    | ok b =>
      rcases List.mem_cons.mp hi with rfl | hi2
      · rw [matchItem_timeout tmo c sm? df dt i htmo] at hma
        cases hma
      · rw [ih i hi2 htmo]

theorem runDescriptor_timeout (tmo : Item → Bool) (d : Descriptor)
    (c : CompiledPattern) (hm : d.matcher = .pattern c) (store : Store)
    (i : Item) (hi : i ∈ store) (htmo : tmo i = true) :
    runDescriptor tmo d store = .error .patternTimeout := by
  unfold runDescriptor
  rw [hm, scanItems_timeout tmo c d.supermarket d.dateFrom d.dateTo store i hi htmo]

/-- Claim C8: with `useRegex` true, a pattern that fails to compile
fails the request with `InvalidPattern` immediately (before any store
access, for every store) and returns no partial results; and if any
single per-item match exceeds its execution-time budget, the whole
search aborts with `PatternTimeout`, never returning a partial or
truncated result. -/
theorem claim_C8_regex_errors :
    (∀ (raw : RawRequest) (df dt : Option Date), strTrim raw.keyword ≠ "" →
      parseOptDate raw.dateFrom = .ok df → parseOptDate raw.dateTo = .ok dt →
      checkRange df dt = .ok () → ¬ raw.page.getD 1 < 1 →
      ¬ (raw.pageSize.getD 20 < 1 ∨ 100 < raw.pageSize.getD 20) →
      raw.useRegex = true → compilePattern (strTrim raw.keyword).toList = none →
      validate raw = .error .invalidPattern ∧
        ∀ (tmo : Item → Bool) (store : Store),
          searchPipeline tmo raw store = .error .invalidPattern) ∧
    (∀ (tmo : Item → Bool) (c : CompiledPattern) (sm? : Option String)
        (df dt : Option Date) (store : List Item) (i : Item),
      i ∈ store → tmo i = true →
      scanItems tmo (.pattern c) sm? df dt store = .error .patternTimeout) ∧
    (∀ (tmo : Item → Bool) (d : Descriptor) (c : CompiledPattern) (store : Store)
        (i : Item), d.matcher = .pattern c → i ∈ store → tmo i = true →
      runDescriptor tmo d store = .error .patternTimeout) := by
  refine ⟨?_, ?_, ?_⟩
  · intro raw df dt h1 h2 h3 h4 h5 h6 h7 h8
    have hv := validate_invalid_pattern raw df dt h1 h2 h3 h4 h5 h6 h7 h8
    exact ⟨hv, fun tmo store => validate_err_frame raw _ hv tmo store⟩
  · intro tmo c sm? df dt store i hi htmo
    exact scanItems_timeout tmo c sm? df dt store i hi htmo
  · intro tmo d c store i hm hi htmo
    exact runDescriptor_timeout tmo d c hm store i hi htmo

theorem claim_C8_witness :
    (strTrim rawBadPattern.keyword ≠ "" ∧ rawBadPattern.useRegex = true ∧
      compilePattern (strTrim rawBadPattern.keyword).toList = none ∧
      itemEggsA ∈ [itemEggsA, itemEggsB] ∧ (fun _ : Item => true) itemEggsA = true) ∧
    validate rawBadPattern = .error .invalidPattern ∧
    scanItems (fun _ => true) (.pattern ⟨false, false, ['a']⟩) none none none
      [itemEggsA, itemEggsB] = .error .patternTimeout := by
  refine ⟨⟨by decide, rfl, by decide, by decide, rfl⟩, ?_, ?_⟩
  · exact (claim_C8_regex_errors.1 rawBadPattern none none (by decide) rfl rfl rfl
      (by decide) (by decide) rfl (by decide)).1
  · exact claim_C8_regex_errors.2.1 (fun _ => true) ⟨false, false, ['a']⟩ none none none
      [itemEggsA, itemEggsB] itemEggsA (by decide) rfl

/-! ### Price history aggregation -/

theorem mixedCur_false_iff (pts : List PricePoint) :
    mixedCur pts = false ↔ ∀ p ∈ pts, ∀ q ∈ pts, p.currency = q.currency := by
  cases pts with
  | nil => simp [mixedCur]
  | cons p rest =>
    simp only [mixedCur, List.any_eq_false, bne_iff_ne, ne_eq, not_not]
    constructor
    · intro h q hq r hr
      rcases List.mem_cons.mp hq with rfl | hq2 <;>
        rcases List.mem_cons.mp hr with rfl | hr2
      · rfl
      · exact (h r hr2).symm
      · exact h q hq2
      · exact (h q hq2).trans (h r hr2).symm
    · intro h x hx
      exact h x (List.mem_cons_of_mem p hx) p (List.mem_cons_self p rest)

theorem pickBest_mem (better : PricePoint → PricePoint → Bool)
    (l : List PricePoint) : ∀ p, pickBest better p l ∈ p :: l := by
  unfold pickBest
  induction l with
  | nil => intro p; simp
  | cons q rest ih =>
    intro p
    simp only [List.foldl_cons]
    have h2 := ih (if better q p then q else p)
    rcases List.mem_cons.mp h2 with he | hmem
    · rw [he]
      by_cases hb : better q p
      · rw [if_pos hb]
        exact List.mem_cons_of_mem p (List.mem_cons_self q rest)
      · rw [if_neg hb]
        exact List.mem_cons_self p (q :: rest)
    · exact List.mem_cons_of_mem p (List.mem_cons_of_mem q hmem)

theorem pickBest_min (better : PricePoint → PricePoint → Bool)
    (f : PricePoint → Int)
    (hbf : ∀ a b, (better a b = true → f a ≤ f b) ∧ (better a b = false → f b ≤ f a))
    (l : List PricePoint) :
    ∀ p, ∀ q ∈ p :: l, f (pickBest better p l) ≤ f q := by
  unfold pickBest
  induction l with
  | nil =>
    intro p q hq
    rcases List.mem_cons.mp hq with rfl | h0
    · simp
    · cases h0
  | cons r rest ih =>
    intro p q hq
    simp only [List.foldl_cons]
    have hstep : f (if better r p then r else p) ≤ f p ∧
        f (if better r p then r else p) ≤ f r := by
      by_cases hb : better r p
      · rw [if_pos hb]
        exact ⟨(hbf r p).1 hb, le_refl _⟩
      · rw [if_neg hb]
        exact ⟨le_refl _, (hbf r p).2 (Bool.not_eq_true _ ▸ hb)⟩
    have hbase := ih (if better r p then r else p)
    have hself : f (List.foldl (fun acc q => if better q acc then q else acc)
        (if better r p then r else p) rest) ≤ f (if better r p then r else p) :=
      hbase _ (List.mem_cons_self _ _)
    rcases List.mem_cons.mp hq with rfl | hq2
    · exact le_trans hself hstep.1
    · rcases List.mem_cons.mp hq2 with rfl | hq3
      · exact le_trans hself hstep.2
      · exact hbase q (List.mem_cons_of_mem _ hq3)

theorem ptLtMin_price (a b : PricePoint) :
    (ptLtMin a b = true → a.price ≤ b.price) ∧
      (ptLtMin a b = false → b.price ≤ a.price) := by
  unfold ptLtMin
  constructor <;> intro h <;> simp at h <;> omega

theorem ptLtMax_price (a b : PricePoint) :
    (ptLtMax a b = true → b.price ≤ a.price) ∧
      (ptLtMax a b = false → a.price ≤ b.price) := by
  unfold ptLtMax
  constructor <;> intro h <;> simp at h <;> omega

theorem lowestOf_spec (pts : List PricePoint) (hne : pts ≠ []) :
    ∃ lo, lowestOf pts = some lo ∧ lo ∈ pts ∧ ∀ q ∈ pts, lo.price ≤ q.price := by
  cases pts with
  | nil => exact absurd rfl hne
  | cons p rest =>
    refine ⟨pickBest ptLtMin p rest, rfl, pickBest_mem ptLtMin rest p, ?_⟩
    exact fun q hq => pickBest_min ptLtMin (fun x => x.price)
      (fun a b => ptLtMin_price a b) rest p q hq

theorem highestOf_spec (pts : List PricePoint) (hne : pts ≠ []) :
    ∃ hi, highestOf pts = some hi ∧ hi ∈ pts ∧ ∀ q ∈ pts, q.price ≤ hi.price := by
  cases pts with
  | nil => exact absurd rfl hne
  | cons p rest =>
    refine ⟨pickBest ptLtMax p rest, rfl, pickBest_mem ptLtMax rest p, ?_⟩
    intro q hq
    have hkey := pickBest_min ptLtMax (fun x => -x.price)
      (fun a b => ⟨fun h => by dsimp only; have := (ptLtMax_price a b).1 h; omega,
                   fun h => by dsimp only; have := (ptLtMax_price a b).2 h; omega⟩)
      rest p q hq
    dsimp only at hkey
    omega

/-- Claim C3: for every price-history result with at least one matched
point, a single shared currency yields `average` equal to the exact
arithmetic mean with `mixedCurrencies` false; more than one currency
yields `average = null` with `mixedCurrencies` true and no conversion;
and lowest/highest are computed by numeric price comparison either
way. -/
theorem claim_C3_average_mixed (store : Store) (itemName : String)
    (sm? : Option String) (resp : HistoryResponse)
    (h : getPriceHistory store itemName sm? = .ok resp)
    (hne : resp.history ≠ []) :
    ((∀ p ∈ resp.history, ∀ q ∈ resp.history, p.currency = q.currency) →
      resp.mixedCurrencies = false ∧
        resp.averagePrice =
          some ((resp.history.map fun p => (p.price : ℚ)).sum / resp.history.length)) ∧
    ((∃ p ∈ resp.history, ∃ q ∈ resp.history, p.currency ≠ q.currency) →
      resp.mixedCurrencies = true ∧ resp.averagePrice = none) ∧
    (∃ lo, resp.lowestPrice = some lo ∧ lo ∈ resp.history ∧
      ∀ p ∈ resp.history, lo.price ≤ p.price) ∧
    (∃ hi, resp.highestPrice = some hi ∧ hi ∈ resp.history ∧
      ∀ p ∈ resp.history, p.price ≤ hi.price) := by
  unfold getPriceHistory at h
  simp only [Except.ok.injEq] at h
  subst h
  set pts := (historyFilter store itemName sm?).map pointOf with hpts
  have hperm : List.Perm (List.insertionSort ptLe pts) pts :=
    List.perm_insertionSort _ _
  have hmem : ∀ x, x ∈ List.insertionSort ptLe pts ↔ x ∈ pts :=
    fun x => hperm.mem_iff
  have hpne : pts ≠ [] := by
    intro h0
    apply hne
    dsimp only
    rw [h0]
    rfl
  refine ⟨?_, ?_, ?_, ?_⟩
  · intro hall
    have hmix : mixedCur pts = false := by
      rw [mixedCur_false_iff]
      intro p hp q hq
      exact hall p ((hmem p).mpr hp) q ((hmem q).mpr hq)
    have hemp : pts.isEmpty = false := by
      cases hp0 : pts with
      | nil => exact absurd hp0 hpne
      | cons a b => simp [hp0]
    refine ⟨hmix, ?_⟩
    dsimp only
    rw [avgOf, hemp, hmix]
    simp only [Bool.or_self, Bool.false_eq_true, if_false, Option.some.injEq]
    rw [(hperm.map fun p => (p.price : ℚ)).sum_eq, hperm.length_eq]
  · rintro ⟨p, hp, q, hq, hpq⟩
    have hmix : mixedCur pts = true := by
      by_contra hc
      have hf : mixedCur pts = false := by
        cases hm : mixedCur pts
        · rfl
        · exact absurd hm hc
      exact hpq ((mixedCur_false_iff pts).mp hf p ((hmem p).mp hp) q ((hmem q).mp hq))
    refine ⟨hmix, ?_⟩
    dsimp only
    rw [avgOf, hmix]
    simp
  · obtain ⟨lo, h1, h2, h3⟩ := lowestOf_spec pts hpne
    exact ⟨lo, h1, (hmem lo).mpr h2, fun p hp => h3 p ((hmem p).mp hp)⟩
  · obtain ⟨hi, h1, h2, h3⟩ := highestOf_spec pts hpne
    exact ⟨hi, h1, (hmem hi).mpr h2, fun p hp => h3 p ((hmem p).mp hp)⟩

theorem claim_C3_witness :
    (getPriceHistory [itemEggsA, itemEggsBEur] "Eggs" none = .ok respC3 ∧
      respC3.history ≠ []) ∧
    ((∀ p ∈ respC3.history, ∀ q ∈ respC3.history, p.currency = q.currency) →
      respC3.mixedCurrencies = false ∧
        respC3.averagePrice =
          some ((respC3.history.map fun p => (p.price : ℚ)).sum /
            respC3.history.length)) ∧
    ((∃ p ∈ respC3.history, ∃ q ∈ respC3.history, p.currency ≠ q.currency) →
      respC3.mixedCurrencies = true ∧ respC3.averagePrice = none) ∧
    (∃ lo, respC3.lowestPrice = some lo ∧ lo ∈ respC3.history ∧
      ∀ p ∈ respC3.history, lo.price ≤ p.price) ∧
    (∃ hi, respC3.highestPrice = some hi ∧ hi ∈ respC3.history ∧
      ∀ p ∈ respC3.history, p.price ≤ hi.price) :=
  ⟨⟨rfl, by decide⟩,
   claim_C3_average_mixed [itemEggsA, itemEggsBEur] "Eggs" none respC3 rfl (by decide)⟩

/-- Claim C4: for every store and item name with no matching price
points, `GetPriceHistory` succeeds (it is not an error) and returns an
empty history with lowest, highest and average all null. -/
theorem claim_C4_empty_history (store : Store) (itemName : String)
    (sm? : Option String)
    (h : ∀ i ∈ store, (nameMatches itemName i && smOk sm? i) = false) :
    getPriceHistory store itemName sm? =
      .ok { itemName := itemName, history := [], lowestPrice := none,
            highestPrice := none, averagePrice := none, mixedCurrencies := false } := by
  have hf : historyFilter store itemName sm? = [] := by
    unfold historyFilter
    rw [List.filter_eq_nil_iff]
    intro a ha
    simp [h a ha]
  unfold getPriceHistory
  rw [hf]
  rfl

theorem claim_C4_witness :
    (∀ i ∈ [itemMilk, itemMilkland], (nameMatches "Eggs" i && smOk none i) = false) ∧
    getPriceHistory [itemMilk, itemMilkland] "Eggs" none =
      .ok { itemName := "Eggs", history := [], lowestPrice := none,
            highestPrice := none, averagePrice := none, mixedCurrencies := false } :=
  ⟨by decide, claim_C4_empty_history [itemMilk, itemMilkland] "Eggs" none (by decide)⟩

/-! ### Frontend search page state -/

/-- Claim C10: if the search API call rejects, `handleSearch` sets
`results` to the empty list and `total` to 0 while leaving
`totalPages`, `page` and all filter and sort fields unchanged, so
after a failed request the page can hold `total = 0` together with a
stale `totalPages > 0` from the previous successful search. -/
theorem claim_C10_failure_frame (s : SearchPageState)
    (h : strTrim s.keyword ≠ "") :
    ((handleSearch s .failure).results = [] ∧
     (handleSearch s .failure).total = 0 ∧
     (handleSearch s .failure).totalPages = s.totalPages ∧
     (handleSearch s .failure).page = s.page ∧
     (handleSearch s .failure).keyword = s.keyword ∧
     (handleSearch s .failure).supermarket = s.supermarket ∧
     (handleSearch s .failure).dateFrom = s.dateFrom ∧
     (handleSearch s .failure).dateTo = s.dateTo ∧
     (handleSearch s .failure).sortBy = s.sortBy ∧
     (handleSearch s .failure).sortOrder = s.sortOrder) ∧
    (∀ d : SearchData,
      (handleSearch (handleSearch s (.success d)) .failure).total = 0 ∧
      (handleSearch (handleSearch s (.success d)) .failure).totalPages =
        d.total_pages) := by
  constructor
  · simp [handleSearch, h]
  · intro d
    simp [handleSearch, h]

theorem claim_C10_witness :
    strTrim pageStateMilk.keyword ≠ "" ∧
    (((handleSearch pageStateMilk .failure).results = [] ∧
      (handleSearch pageStateMilk .failure).total = 0 ∧
      (handleSearch pageStateMilk .failure).totalPages = pageStateMilk.totalPages ∧
      (handleSearch pageStateMilk .failure).page = pageStateMilk.page ∧
      (handleSearch pageStateMilk .failure).keyword = pageStateMilk.keyword ∧
      (handleSearch pageStateMilk .failure).supermarket = pageStateMilk.supermarket ∧
      (handleSearch pageStateMilk .failure).dateFrom = pageStateMilk.dateFrom ∧
      (handleSearch pageStateMilk .failure).dateTo = pageStateMilk.dateTo ∧
      (handleSearch pageStateMilk .failure).sortBy = pageStateMilk.sortBy ∧
      (handleSearch pageStateMilk .failure).sortOrder = pageStateMilk.sortOrder) ∧
     (∀ d : SearchData,
       (handleSearch (handleSearch pageStateMilk (.success d)) .failure).total = 0 ∧
       (handleSearch (handleSearch pageStateMilk (.success d)) .failure).totalPages =
         d.total_pages)) :=
  ⟨by decide, claim_C10_failure_frame pageStateMilk (by decide)⟩

end PricesTracker
